import Mathlib

/-!
Verification of the Wiimote mouse-driver core.

Shallow embedding of the report codec (`src/wiimote/protocol.py`), the
driver-side extension handling, battery decoding, frame queue, calibration and
reconnect backoff (`src/wiimote/driver.py`), the low-pass filter
(`src/mouse/filters.py`) and the accel/gyro complementary-filter fusion step
(`src/mouse/controller_driver.py`).

Bytes are modelled as natural numbers; byte strings as `List ℕ`.  Every Python
index access `data[i]` is modelled as `data[i]?` in the `Option` monad, so a
Lean result of `none` corresponds to an uncaught `IndexError`; slices, which
never raise, are modelled with `List.drop`/`List.take`.  Python `int(x)` on a
non-negative quotient is modelled by natural floor division.  Real-valued
sensor arithmetic is modelled over `ℝ` (the fusion path, which uses `atan2`
and `sqrt`) or `ℚ` (the exactly-rational paths).
-/

namespace WiimoteProtocol

/-- Button states (protocol.py `ButtonState`). -/
structure ButtonState where
  A : Bool := false
  B : Bool := false
  One : Bool := false
  Two : Bool := false
  Plus : Bool := false
  Minus : Bool := false
  Home : Bool := false
  DPad_Left : Bool := false
  DPad_Right : Bool := false
  DPad_Up : Bool := false
  DPad_Down : Bool := false
deriving DecidableEq

/-- Accelerometer data (protocol.py `AccelData`). -/
structure AccelData where
  x : ℕ := 512
  y : ℕ := 512
  z : ℕ := 512
deriving DecidableEq

/-- IR point data (protocol.py `IRPoint`). -/
structure IRPoint where
  x : ℕ
  y : ℕ
  size : ℕ := 0
deriving DecidableEq

/-- MotionPlus (gyro) data (protocol.py `MotionPlusData`). -/
structure MotionPlusData where
  yaw : ℕ
  pitch : ℕ
  roll : ℕ
  yaw_fast : Bool
  pitch_fast : Bool
  roll_fast : Bool
  extension_connected : Bool
deriving DecidableEq

/-- Nunchuk button states (protocol.py `NunchukButtons`). -/
structure NunchukButtons where
  C : Bool := false
  Z : Bool := false
deriving DecidableEq

/-- Nunchuk data (protocol.py `NunchukData`). -/
structure NunchukData where
  stick_x : ℕ
  stick_y : ℕ
  accel_x : ℕ
  accel_y : ℕ
  accel_z : ℕ
  buttons : NunchukButtons
deriving DecidableEq

/-- `WiimoteProtocol.parse_buttons`. -/
def parse_buttons (data : List ℕ) : Option ButtonState :=
  if data.length < 2 then some {}
  else do
    let byte0 ← data[0]?
    let byte1 ← data[1]?
    some
      { DPad_Left := byte0 &&& 0x01 ≠ 0
        DPad_Right := byte0 &&& 0x02 ≠ 0
        DPad_Down := byte0 &&& 0x04 ≠ 0
        DPad_Up := byte0 &&& 0x08 ≠ 0
        Plus := byte0 &&& 0x10 ≠ 0
        Two := byte1 &&& 0x01 ≠ 0
        One := byte1 &&& 0x02 ≠ 0
        B := byte1 &&& 0x04 ≠ 0
        A := byte1 &&& 0x08 ≠ 0
        Minus := byte1 &&& 0x10 ≠ 0
        Home := byte1 &&& 0x80 ≠ 0 }

/-- `WiimoteProtocol.parse_accelerometer`.  The inner `Option` is the Python
`Optional[AccelData]` result; the outer one models index errors. -/
def parse_accelerometer (data : List ℕ) (offset : ℕ := 2) :
    Option (Option AccelData) :=
  if data.length < offset + 3 then some none
  else do
    let x ← data[offset]?
    let y ← data[offset + 1]?
    let z ← data[offset + 2]?
    if 1 < data.length then do
      let b0 ← data[0]?
      let b1 ← data[1]?
      some (some
        { x := (x <<< 2) ||| ((b0 >>> 5) &&& 0x03)
          y := (y <<< 1) ||| ((b1 >>> 5) &&& 0x01)
          z := (z <<< 1) ||| ((b1 >>> 6) &&& 0x01) })
    else
      some (some { x := x <<< 2, y := y <<< 1, z := z <<< 1 })

/-- The body of `parse_ir`'s `for i in range(4)` loop, over the list of
remaining loop indices; `break` returns the empty remainder. -/
def parse_ir_loop (data : List ℕ) (offset : ℕ) : List ℕ → Option (List IRPoint)
  | [] => some []
  | i :: rest => do
    let base := offset + i * 3
    if data.length ≤ base + 2 then some []
    else do
      let x_lo ← data[base]?
      let y_lo ← data[base + 1]?
      let packed ← data[base + 2]?
      let x_hi := (packed >>> 4) &&& 0x03
      let y_hi := (packed >>> 6) &&& 0x03
      let size := packed &&& 0x0F
      let x := (x_hi <<< 8) ||| x_lo
      let y := (y_hi <<< 8) ||| y_lo
      let tail ← parse_ir_loop data offset rest
      if x ≠ 0x3FF ∧ y ≠ 0x3FF then
        some ({ x := x, y := y, size := size } :: tail)
      else
        some tail

/-- `WiimoteProtocol.parse_ir`. -/
def parse_ir (data : List ℕ) (offset : ℕ := 5) : Option (List IRPoint) :=
  if data.length < offset + 10 then some []
  else parse_ir_loop data offset [0, 1, 2, 3]

/-- The MotionPlus record built from six extension bytes
(the field assignments of `parse_motionplus`). -/
def mp_of_bytes (b0 b1 b2 b3 b4 b5 : ℕ) : MotionPlusData :=
  { yaw := b0 ||| ((b3 &&& 0xFC) <<< 6)
    roll := b1 ||| ((b4 &&& 0xFC) <<< 6)
    pitch := b2 ||| ((b5 &&& 0xFC) <<< 6)
    yaw_fast := b3 &&& 0x02 = 0
    roll_fast := b4 &&& 0x02 = 0
    pitch_fast := b5 &&& 0x02 = 0
    extension_connected := b5 &&& 0x01 = 0 }

/-- `WiimoteProtocol.parse_motionplus`. -/
def parse_motionplus (data : List ℕ) (offset : ℕ := 0) :
    Option (Option MotionPlusData) :=
  if data.length < offset + 6 then some none
  else do
    let b0 ← data[offset]?
    let b1 ← data[offset + 1]?
    let b2 ← data[offset + 2]?
    let b3 ← data[offset + 3]?
    let b4 ← data[offset + 4]?
    let b5 ← data[offset + 5]?
    some (some (mp_of_bytes b0 b1 b2 b3 b4 b5))

/-- `WiimoteProtocol.parse_nunchuk`. -/
def parse_nunchuk (data : List ℕ) (offset : ℕ := 0) :
    Option (Option NunchukData) :=
  if data.length < offset + 6 then some none
  else do
    let stick_x ← data[offset]?
    let stick_y ← data[offset + 1]?
    let ax_hi ← data[offset + 2]?
    let ay_hi ← data[offset + 3]?
    let az_hi ← data[offset + 4]?
    let btns ← data[offset + 5]?
    some (some
      { stick_x := stick_x
        stick_y := stick_y
        accel_x := (ax_hi <<< 2) ||| ((btns >>> 2) &&& 0x03)
        accel_y := (ay_hi <<< 2) ||| ((btns >>> 4) &&& 0x03)
        accel_z := (az_hi <<< 2) ||| ((btns >>> 6) &&& 0x03)
        buttons := { C := btns &&& 0x02 = 0, Z := btns &&& 0x01 = 0 } })

/-- The result dictionary of `parse_report` (the `events` list, which merely
mirrors the non-`None` fields below, is not modelled). -/
structure ParseResult where
  buttons : Option ButtonState := none
  accel : Option AccelData := none
  ir_points : List IRPoint := []
  battery : Option ℕ := none
  report_type : Option ℕ := none
  motionplus : Option MotionPlusData := none
  nunchuk : Option NunchukData := none
deriving DecidableEq

/-- The initial `result` dictionary of `parse_report`. -/
def emptyResult : ParseResult := {}

/-- The data-report (`0x30 ≤ tag ≤ 0x3f`) branch of `parse_report`, applied to
`payload = data[2:]`: buttons, accelerometer (for the accel-bearing tags), IR
(offset 5 for 0x33/0x37, offset 2 for 0x36), then the extension block at
payload offset 15 for 0x37 and 5 for the other extension tags. -/
def parse_report_data (payload : List ℕ) (report_type : ℕ)
    (extension : Option String) (result0 : ParseResult) : Option ParseResult :=
  (parse_buttons payload).bind fun buttons =>
  (if report_type = 0x31 ∨ report_type = 0x32 ∨ report_type = 0x33 ∨
      report_type = 0x35 ∨ report_type = 0x36 ∨ report_type = 0x37 then
    parse_accelerometer payload 2
  else some none).bind fun accel =>
  (if report_type = 0x33 then parse_ir payload 5
   else if report_type = 0x36 then parse_ir payload 2
   else if report_type = 0x37 then parse_ir payload 5
   else some []).bind fun ir_points =>
  let base : ParseResult := { result0 with buttons := some buttons, accel := accel,
                                           ir_points := ir_points }
  if report_type = 0x32 ∨ report_type = 0x35 ∨ report_type = 0x36 ∨
      report_type = 0x37 then
    let extension_offset : ℕ := if report_type = 0x37 then 15 else 5
    let extension_data := payload.drop extension_offset
    if extension = some "motionplus" then
      (parse_motionplus extension_data 0).bind fun mp =>
        some { base with motionplus := mp }
    else if extension = some "nunchuk" then
      (parse_nunchuk extension_data 0).bind fun nk =>
        some { base with nunchuk := nk }
    else some base
  else some base

/-- The status-report (tag 0x20) branch of `parse_report`: battery is
`data[6]` scaled by `int((raw / 255.0) * 100)` when the frame is long
enough. -/
def parse_report_status (data : List ℕ) (result0 : ParseResult) :
    Option ParseResult :=
  if 7 ≤ data.length then do
    let battery_raw ← data[6]?
    some { result0 with battery := some (battery_raw * 100 / 255) }
  else some result0

/-- `WiimoteProtocol.parse_report`.  `extension` is the Python optional string
argument (`"motionplus"` / `"nunchuk"` / `None`). -/
def parse_report (data : List ℕ) (extension : Option String := none) :
    Option ParseResult :=
  if data.length < 2 then some emptyResult
  else do
    let d0 ← data[0]?
    if d0 ≠ 0xa1 then some emptyResult
    else do
      let report_type ← data[1]?
      let result0 : ParseResult := { emptyResult with report_type := some report_type }
      if 0x30 ≤ report_type ∧ report_type ≤ 0x3f then
        parse_report_data (data.drop 2) report_type extension result0
      else if report_type = 0x20 then
        parse_report_status data result0
      else some result0

end WiimoteProtocol

namespace WiimoteDriver

open WiimoteProtocol

/-- The extension-block offset computed by `WiimoteDriver.read_state` for the
data-with-extension report tags (`base_offset` is 1 when the raw payload still
carries the report id at index 0, else 0): buttons at `base_offset`, the
accelerometer 2 bytes later, and the extension after the accelerometer's 3
bytes, plus the 10-byte IR block for tags 0x36 and 0x37. -/
def driver_extension_offset (report_id base_offset : ℕ) : Option ℕ :=
  let buttons_offset := base_offset
  let accel_offset := buttons_offset + 2
  if report_id = 0x32 then some (accel_offset + 3)
  else if report_id = 0x35 then some (accel_offset + 3)
  else if report_id = 0x36 ∨ report_id = 0x37 then some (accel_offset + 3 + 10)
  else none

/-- The expected extension-block length of `WiimoteDriver.read_state`. -/
def driver_extension_expected_len (report_id : ℕ) : ℕ :=
  if report_id = 0x32 then 8
  else if report_id = 0x35 then 16
  else if report_id = 0x37 then 6
  else if report_id = 0x36 then 16
  else 0

/-- The battery-byte selection of `WiimoteDriver.read_state`'s status-report
(0x20) branch: `payload[offset+5]` when the frame is long enough, else
`payload[offset+4]`, else the last byte. -/
def driver_status_battery_raw (payload : List ℕ) (offset : ℕ) : Option ℕ :=
  if offset + 6 ≤ payload.length then payload[offset + 5]?
  else if offset + 5 ≤ payload.length then payload[offset + 4]?
  else if 0 < payload.length then payload[payload.length - 1]?
  else none

/-- The battery percentage computed by `WiimoteDriver.read_state`:
`min(100, int((raw / 200.0) * 100))`. -/
def driver_battery_level (raw : ℕ) : ℕ :=
  min 100 (raw * 100 / 200)

/-- The battery percentage computed by `WiimoteProtocol.parse_report` for a
status report: `int((raw / 255.0) * 100)`. -/
def protocol_battery_level (raw : ℕ) : ℕ :=
  raw * 100 / 255

/-- One producer push of `WiimoteDriver._read_loop`: `put_nowait`, and on a
full queue drop the oldest entry (`get_nowait`) and enqueue the new frame.
The queue front is the oldest frame. -/
def queue_push (cap : ℕ) (q : List α) (x : α) : List α :=
  if q.length < cap then q ++ [x] else q.drop 1 ++ [x]

/-- Pushing a whole sequence of frames in order. -/
def queue_push_all (cap : ℕ) (q : List α) (xs : List α) : List α :=
  xs.foldl (queue_push cap) q

/-- One delay update of `WiimoteDriver._reconnect_loop` after a failed
attempt: `delay = min(max_delay, delay * backoff)`, then, when jitter is
configured, `delay = max(0.1, delay + jitter * (0.5 - frac))` where `frac`
models `time.time() % 1 ∈ [0, 1)`. -/
def reconnect_next_delay (max_delay backoff jitter frac delay : ℚ) : ℚ :=
  let d := min max_delay (delay * backoff)
  if 0 < jitter then max (1 / 10) (d + jitter * (1 / 2 - frac)) else d

/-- The delay a freshly started `_reconnect_loop` begins with:
`max(0.1, initial_delay)`. -/
def reconnect_initial_delay (initial : ℚ) : ℚ := max (1 / 10) initial

/-- `WiimoteDriver.calibrate`'s sampling loop.  `fuel` is the remaining
attempt budget (`max_attempts = samples * 3`); each list entry models one
`_read_raw_state()` result (`none` = failed/empty read, skipped; an exhausted
list is read as further empty reads).  The loop stops once `samples` gyro
samples are gathered or the budget is spent. -/
def calib_loop (samples : ℕ) :
    ℕ → List (Option ((ℚ × ℚ × ℚ) × (ℚ × ℚ × ℚ))) →
    List (ℚ × ℚ × ℚ) → List (ℚ × ℚ × ℚ) →
    List (ℚ × ℚ × ℚ) × List (ℚ × ℚ × ℚ)
  | 0, _, accel_samples, gyro_samples => (accel_samples, gyro_samples)
  | fuel + 1, reads, accel_samples, gyro_samples =>
    if samples ≤ gyro_samples.length then (accel_samples, gyro_samples)
    else
      match reads with
      | [] => calib_loop samples fuel [] accel_samples gyro_samples
      | none :: rest => calib_loop samples fuel rest accel_samples gyro_samples
      | some (accel, gyro) :: rest =>
          calib_loop samples fuel rest (accel_samples ++ [accel])
            (gyro_samples ++ [gyro])

/-- Per-axis arithmetic mean of a list of sample triples. -/
def tripleAvg (l : List (ℚ × ℚ × ℚ)) : ℚ × ℚ × ℚ :=
  ((l.map (·.1)).sum / l.length, (l.map (·.2.1)).sum / l.length,
    (l.map (·.2.2)).sum / l.length)

/-- The calibration offsets held by the driver (`_gyro_offset`,
`_accel_offset`). -/
structure CalibOffsets where
  gyro_offset : ℚ × ℚ × ℚ
  accel_offset : ℚ × ℚ × ℚ
deriving DecidableEq

/-- `WiimoteDriver.calibrate`: collects samples, fails (returning the offsets
unchanged) when none were collected, else sets offsets to mean minus target. -/
def calibrate (samples : ℕ) (gyro_target accel_target : ℚ)
    (reads : List (Option ((ℚ × ℚ × ℚ) × (ℚ × ℚ × ℚ))))
    (st : CalibOffsets) : Bool × CalibOffsets :=
  let p := calib_loop samples (samples * 3) reads [] []
  if p.2 = [] ∨ p.1 = [] then (false, st)
  else
    let avg_gyro := tripleAvg p.2
    let avg_accel := tripleAvg p.1
    (true,
      { gyro_offset := (avg_gyro.1 - gyro_target, avg_gyro.2.1 - gyro_target,
          avg_gyro.2.2 - gyro_target)
        accel_offset := (avg_accel.1 - accel_target, avg_accel.2.1 - accel_target,
          avg_accel.2.2 - accel_target) })

/-- A 6-byte candidate window of the extension payload
(`extension_bytes[start:start + 6]`). -/
def mp_window (ext : List ℕ) (start : ℕ) : List ℕ :=
  (ext.drop start).take 6

/-- The plausibility score `WiimoteDriver.read_state` assigns a candidate
MotionPlus window: `high_bits * 3 + in_range * 2 + non_zero`. -/
def mp_window_score (c : List ℕ) (mp : MotionPlusData) : ℕ :=
  let high_bits : ℕ :=
    (if c.getD 3 0 &&& 0xFC ≠ 0 then 1 else 0) +
    (if c.getD 4 0 &&& 0xFC ≠ 0 then 1 else 0) +
    (if c.getD 5 0 &&& 0xFC ≠ 0 then 1 else 0)
  let values := [mp.roll, mp.pitch, mp.yaw]
  let in_range := (values.filter fun v => decide (1000 ≤ v ∧ v ≤ 16000)).length
  let non_zero := (values.filter fun v => decide (v ≠ 0)).length
  high_bits * 3 + in_range * 2 + non_zero

/-- One iteration of the sliding-window search: parse the candidate window,
and keep it as the new best exactly when its score strictly exceeds the best
so far (`none` models the initial `best_score = -1`, `best_mp = None`). -/
def mp_scan_step (ext : List ℕ) (best : Option (ℕ × ℕ × MotionPlusData))
    (start : ℕ) : Option (ℕ × ℕ × MotionPlusData) :=
  match parse_motionplus (mp_window ext start) 0 with
  | some (some mp) =>
    let score := mp_window_score (mp_window ext start) mp
    (match best with
     | none => some (start, score, mp)
     | some (b, bs, bmp) =>
       if bs < score then some (start, score, mp) else some (b, bs, bmp))
  | _ => best

/-- The full sliding-window search of `WiimoteDriver.read_state`:
`for start in range(0, max(0, len(extension_bytes) - 6) + 1)`. -/
def mp_scan (ext : List ℕ) : Option (ℕ × ℕ × MotionPlusData) :=
  (List.range (max 0 (ext.length - 6) + 1)).foldl (mp_scan_step ext) none

/-- The acceptance step: the best window is used only when
`best_mp is not None and best_score >= 2`; otherwise no motion data is
reported for the frame. -/
def mp_locate (ext : List ℕ) : Option (ℕ × MotionPlusData) :=
  match mp_scan ext with
  | some (best_offset, best_score, best_mp) =>
      if 2 ≤ best_score then some (best_offset, best_mp) else none
  | none => none

/-- The MotionPlus reading decoded from window `i` of the payload. -/
def mp_at (ext : List ℕ) (i : ℕ) : MotionPlusData :=
  mp_of_bytes ((mp_window ext i).getD 0 0) ((mp_window ext i).getD 1 0)
    ((mp_window ext i).getD 2 0) ((mp_window ext i).getD 3 0)
    ((mp_window ext i).getD 4 0) ((mp_window ext i).getD 5 0)

/-- The score of window `i` of the payload. -/
def score_at (ext : List ℕ) (i : ℕ) : ℕ :=
  mp_window_score (mp_window ext i) (mp_at ext i)

/-- A concrete 12-byte extension payload: six zero bytes, then a plausible
MotionPlus block. -/
def mpScanExample : List ℕ :=
  [0, 0, 0, 0, 0, 0, 0x10, 0x20, 0x30, 0xFC, 0xFC, 0xFC]

end WiimoteDriver

namespace MouseFilters

/-- `src/mouse/filters.py` `LowPassFilter` state: `alpha`, `_has_value`,
`_value`. -/
structure LowPassFilter (α : Type) where
  alpha : α
  hasValue : Bool
  value : α
deriving DecidableEq

/-- `LowPassFilter._clamp_alpha`: `none` models an argument on which Python's
`float()` raises `TypeError`/`ValueError` (yielding `0.0`); otherwise the
value is clamped into `[0, 1]`. -/
def clamp_alpha [LinearOrderedField α] : Option α → α
  | none => 0
  | some a => max 0 (min 1 a)

/-- `LowPassFilter.__init__`. -/
def LowPassFilter.make [LinearOrderedField α] (a : Option α) : LowPassFilter α :=
  { alpha := clamp_alpha a, hasValue := false, value := 0 }

/-- `LowPassFilter.reset`. -/
def LowPassFilter.reset [LinearOrderedField α] (f : LowPassFilter α)
    (v : Option α) : LowPassFilter α :=
  { f with hasValue := v.isSome, value := v.getD 0 }

/-- `LowPassFilter.apply`: returns the new filter state and the output. -/
def LowPassFilter.apply [LinearOrderedField α] (f : LowPassFilter α) (v : α) :
    LowPassFilter α × α :=
  if f.alpha ≤ 0 then ({ f with hasValue := true, value := v }, v)
  else if f.hasValue = false then ({ f with hasValue := true, value := v }, v)
  else
    let nv := f.alpha * v + (1 - f.alpha) * f.value
    ({ f with hasValue := true, value := nv }, nv)

end MouseFilters

namespace MouseFusion

open MouseFilters

/-- Python `math.atan2(y, x)`. -/
noncomputable def atan2 (y x : ℝ) : ℝ :=
  if 0 < x then Real.arctan (y / x)
  else if x < 0 then
    (if 0 ≤ y then Real.arctan (y / x) + Real.pi
     else Real.arctan (y / x) - Real.pi)
  else if 0 < y then Real.pi / 2
  else if y < 0 then -(Real.pi / 2)
  else 0

/-- The accelerometer-derived pitch of
`MouseController._process_accel_gyro_fusion`:
`atan2(accel_y, sqrt(accel_x**2 + accel_z**2))` with samples centered on
512. -/
noncomputable def accel_pitch_of (ax ay az : ℝ) : ℝ :=
  atan2 (ay - 512) (Real.sqrt ((ax - 512) ^ 2 + (az - 512) ^ 2))

/-- The accelerometer-derived roll:
`atan2(-accel_x, sqrt(accel_y**2 + accel_z**2))`. -/
noncomputable def accel_roll_of (ax ay az : ℝ) : ℝ :=
  atan2 (-(ax - 512)) (Real.sqrt ((ay - 512) ^ 2 + (az - 512) ^ 2))

/-- `if abs(x) < dz: x = 0` — the deadzone pattern used on gyro rates and
angle deltas. -/
noncomputable def deadzone_cut (dz x : ℝ) : ℝ := if |x| < dz then 0 else x

/-- The deadzoned gyro angular rate: `(g - 8000) * 0.00014`, zeroed below
`0.002 + smoothing * 0.0008`. -/
noncomputable def gyro_rate (smoothing g : ℝ) : ℝ :=
  deadzone_cut (2 / 1000 + smoothing * (8 / 10000)) ((g - 8000) * (14 / 100000))

/-- The settings of the fusion path (`mouse_speed`, `smoothing`,
`gyro_sensitivity`, `accel_sensitivity`, already divided by their config
denominators). -/
structure FusionParams where
  mouse_speed : ℝ
  smoothing : ℝ
  gyro_sensitivity : ℝ
  accel_sensitivity : ℝ

/-- The angle-delta deadzone: `0.0005 + max(0, smoothing) * 0.0006`. -/
noncomputable def fusion_deadzone (p : FusionParams) : ℝ :=
  5 / 10000 + max 0 p.smoothing * (6 / 10000)

/-- The pixel scale:
`(accel_sens*0.6 + gyro_sens*0.4) * (max(0.2, speed)**1.8 * 5.0) * 50000`. -/
noncomputable def fusion_scale (p : FusionParams) : ℝ :=
  (p.accel_sensitivity * (6 / 10) + p.gyro_sensitivity * (4 / 10)) *
    (Real.rpow (max (2 / 10) p.mouse_speed) (9 / 5) * 5) * 50000

/-- The mutable fusion state of `MouseController`: blended angles, previous
angles, `_last_time`, and the two movement low-pass filters. -/
structure FusionState where
  pitch : ℝ
  roll : ℝ
  prev_pitch : ℝ
  prev_roll : ℝ
  last_time : Option ℝ
  gyro_filter_x : LowPassFilter ℝ
  gyro_filter_y : LowPassFilter ℝ

/-- One tick of `MouseController._process_accel_gyro_fusion`, given the
current clock reading `now`; returns the new state and the emitted relative
move, `none` when no movement is emitted. -/
noncomputable def fusion_step (p : FusionParams) (st : FusionState)
    (ax ay az gx gy now : ℝ) : FusionState × Option (ℝ × ℝ) :=
  match st.last_time with
  | none =>
    let pitch := accel_pitch_of ax ay az
    let roll := accel_roll_of ax ay az
    ({ st with pitch := pitch, roll := roll, prev_pitch := pitch,
               prev_roll := roll, last_time := some now }, none)
  | some t =>
    let dt0 := now - t
    let dt := if 1 / 10 < dt0 ∨ dt0 ≤ 0 then 1 / 100 else dt0
    let accel_pitch := accel_pitch_of ax ay az
    let accel_roll := accel_roll_of ax ay az
    let gyro_x_rate := gyro_rate p.smoothing gx
    let gyro_y_rate := gyro_rate p.smoothing gy
    let gyro_pitch_delta := gyro_y_rate * dt
    let gyro_roll_delta := gyro_x_rate * dt
    let alpha : ℝ := 3 / 10
    let pitch := alpha * (st.pitch + gyro_pitch_delta) + (1 - alpha) * accel_pitch
    let roll := alpha * (st.roll + gyro_roll_delta) + (1 - alpha) * accel_roll
    let delta_pitch := deadzone_cut (fusion_deadzone p) (pitch - st.prev_pitch)
    let delta_roll := deadzone_cut (fusion_deadzone p) (roll - st.prev_roll)
    let move_x0 := -delta_roll * fusion_scale p
    let move_y0 := delta_pitch * fusion_scale p
    let fx := st.gyro_filter_x.apply move_x0
    let fy := st.gyro_filter_y.apply move_y0
    let st' := { st with
                 pitch := pitch, roll := roll, prev_pitch := pitch,
                 prev_roll := roll, last_time := some now,
                 gyro_filter_x := fx.1, gyro_filter_y := fy.1 }
    (st', if 1 / 2 < |fx.2| ∨ 1 / 2 < |fy.2| then some (fx.2, fy.2) else none)

end MouseFusion

namespace WiimoteProtocol

/-- `n &&& 2 ^ i = 0` says exactly that bit `i` of `n` is clear. -/
theorem and_pow_two_eq_zero_iff (n i : ℕ) :
    n &&& 2 ^ i = 0 ↔ n.testBit i = false := by
  rw [Nat.and_two_pow]
  rcases h : n.testBit i with _ | _ <;> simp [h]

/-- C1: `parse_motionplus` on a 6-byte block `[b0,…,b5]` returns
`yaw = b0 ||| ((b3 &&& 0xFC) <<< 6)`, `roll = b1 ||| ((b4 &&& 0xFC) <<< 6)`,
`pitch = b2 ||| ((b5 &&& 0xFC) <<< 6)`; each per-axis fast-rotation flag is
bit 1 of b3/b4/b5 inverted, and the peripheral-presence flag is bit 0 of b5
inverted.  In particular `[0x10,0x20,0x30,0xFC,0xFC,0xFC]` decodes to
`yaw = 0x3F10, roll = 0x3F20, pitch = 0x3F30, extension_connected = true`. -/
theorem motionplus_decode_correct :
    (∀ b0 b1 b2 b3 b4 b5 : ℕ, ∃ mp : MotionPlusData,
      parse_motionplus [b0, b1, b2, b3, b4, b5] 0 = some (some mp) ∧
      mp.yaw = b0 ||| ((b3 &&& 0xFC) <<< 6) ∧
      mp.roll = b1 ||| ((b4 &&& 0xFC) <<< 6) ∧
      mp.pitch = b2 ||| ((b5 &&& 0xFC) <<< 6) ∧
      mp.yaw_fast = !b3.testBit 1 ∧
      mp.roll_fast = !b4.testBit 1 ∧
      mp.pitch_fast = !b5.testBit 1 ∧
      mp.extension_connected = !b5.testBit 0) ∧
    parse_motionplus [0x10, 0x20, 0x30, 0xFC, 0xFC, 0xFC] 0 =
      some (some { yaw := 0x3F10, roll := 0x3F20, pitch := 0x3F30,
                   yaw_fast := true, roll_fast := true, pitch_fast := true,
                   extension_connected := true }) := by
  constructor
  · intro b0 b1 b2 b3 b4 b5
    refine ⟨mp_of_bytes b0 b1 b2 b3 b4 b5, ?_, rfl, rfl, rfl, ?_, ?_, ?_, ?_⟩
    · simp [parse_motionplus]
    · have h := and_pow_two_eq_zero_iff b3 1
      simp only [pow_one] at h
      simp [mp_of_bytes, h, Bool.not_eq_true']
    · have h := and_pow_two_eq_zero_iff b4 1
      simp only [pow_one] at h
      simp [mp_of_bytes, h, Bool.not_eq_true']
    · have h := and_pow_two_eq_zero_iff b5 1
      simp only [pow_one] at h
      simp [mp_of_bytes, h, Bool.not_eq_true']
    · have h := and_pow_two_eq_zero_iff b5 0
      simp only [pow_zero] at h
      simp only [mp_of_bytes, h, Bool.not_eq_true']
      rcases Nat.mod_two_eq_zero_or_one b5 with h2 | h2 <;>
        simp [Nat.testBit, Nat.and_one_is_mod, h2]
  · decide

theorem parse_buttons_isSome (data : List ℕ) :
    (parse_buttons data).isSome = true := by
  unfold parse_buttons
  split
  · rfl
  · rename_i h
    rw [List.getElem?_eq_getElem (by omega), List.getElem?_eq_getElem (by omega)]
    rfl

theorem parse_accelerometer_isSome (data : List ℕ) (offset : ℕ) :
    (parse_accelerometer data offset).isSome = true := by
  unfold parse_accelerometer
  split
  · rfl
  · rename_i h
    rw [List.getElem?_eq_getElem (by omega), List.getElem?_eq_getElem (by omega),
      List.getElem?_eq_getElem (by omega)]
    simp only [Option.bind_eq_bind, Option.some_bind]
    split
    · rename_i h1
      rw [List.getElem?_eq_getElem (by omega), List.getElem?_eq_getElem (by omega)]
      rfl
    · rfl

theorem parse_ir_loop_isSome (data : List ℕ) (offset : ℕ) (idxs : List ℕ) :
    (parse_ir_loop data offset idxs).isSome = true := by
  induction idxs with
  | nil => rfl
  | cons i rest ih =>
    unfold parse_ir_loop
    dsimp only
    split
    · rfl
    · rename_i h
      rw [List.getElem?_eq_getElem (by omega), List.getElem?_eq_getElem (by omega),
        List.getElem?_eq_getElem (by omega)]
      simp only [Option.bind_eq_bind, Option.some_bind]
      obtain ⟨tail, htail⟩ := Option.isSome_iff_exists.mp ih
      rw [htail]
      simp only [Option.bind_eq_bind, Option.some_bind]
      split <;> rfl

theorem parse_ir_isSome (data : List ℕ) (offset : ℕ) :
    (parse_ir data offset).isSome = true := by
  unfold parse_ir
  split
  · rfl
  · exact parse_ir_loop_isSome data offset [0, 1, 2, 3]

theorem parse_motionplus_isSome (data : List ℕ) (offset : ℕ) :
    (parse_motionplus data offset).isSome = true := by
  unfold parse_motionplus
  split
  · rfl
  · rename_i h
    rw [List.getElem?_eq_getElem (by omega), List.getElem?_eq_getElem (by omega),
      List.getElem?_eq_getElem (by omega), List.getElem?_eq_getElem (by omega),
      List.getElem?_eq_getElem (by omega), List.getElem?_eq_getElem (by omega)]
    rfl

theorem parse_nunchuk_isSome (data : List ℕ) (offset : ℕ) :
    (parse_nunchuk data offset).isSome = true := by
  unfold parse_nunchuk
  split
  · rfl
  · rename_i h
    rw [List.getElem?_eq_getElem (by omega), List.getElem?_eq_getElem (by omega),
      List.getElem?_eq_getElem (by omega), List.getElem?_eq_getElem (by omega),
      List.getElem?_eq_getElem (by omega), List.getElem?_eq_getElem (by omega)]
    rfl

/-- C8: the report decoder is total over arbitrary byte strings — every index
access is guarded by a length check, so `parse_report` (in which a `none`
result would model an uncaught `IndexError`) always returns a result — and
each sub-decoder reports "no data" (`none` / the empty list / the all-released
default) when its bytes are missing. -/
theorem parse_report_data_isSome (payload : List ℕ) (report_type : ℕ)
    (extension : Option String) (result0 : ParseResult) :
    (parse_report_data payload report_type extension result0).isSome = true := by
  unfold parse_report_data
  obtain ⟨b, hb⟩ := Option.isSome_iff_exists.mp (parse_buttons_isSome payload)
  rw [hb]
  simp only [Option.some_bind']
  obtain ⟨a, ha⟩ := Option.isSome_iff_exists.mp
    (show (if report_type = 0x31 ∨ report_type = 0x32 ∨ report_type = 0x33 ∨
        report_type = 0x35 ∨ report_type = 0x36 ∨ report_type = 0x37 then
        parse_accelerometer payload 2 else some none).isSome = true by
      split
      · exact parse_accelerometer_isSome payload 2
      · rfl)
  rw [ha]
  simp only [Option.some_bind']
  obtain ⟨ir, hir⟩ := Option.isSome_iff_exists.mp
    (show (if report_type = 0x33 then parse_ir payload 5
        else if report_type = 0x36 then parse_ir payload 2
        else if report_type = 0x37 then parse_ir payload 5
        else some []).isSome = true by
      split
      · exact parse_ir_isSome payload 5
      · split
        · exact parse_ir_isSome payload 2
        · split
          · exact parse_ir_isSome payload 5
          · rfl)
  rw [hir]
  simp only [Option.some_bind']
  split
  · split
    · obtain ⟨mp, hmp⟩ := Option.isSome_iff_exists.mp
        (parse_motionplus_isSome _ 0)
      rw [hmp]
      rfl
    · split
      · obtain ⟨nk, hnk⟩ := Option.isSome_iff_exists.mp
          (parse_nunchuk_isSome _ 0)
        rw [hnk]
        rfl
      · rfl
  · rfl

theorem parse_report_status_isSome (data : List ℕ) (result0 : ParseResult) :
    (parse_report_status data result0).isSome = true := by
  unfold parse_report_status
  split
  · rw [List.getElem?_eq_getElem (by omega)]
    rfl
  · rfl

theorem parse_report_never_raises :
    (∀ (data : List ℕ) (extension : Option String),
      (parse_report data extension).isSome = true) ∧
    (∀ (data : List ℕ) (extension : Option String), data.length < 2 →
      parse_report data extension = some emptyResult) ∧
    (∀ data : List ℕ, data.length < 2 → parse_buttons data = some {}) ∧
    (∀ (data : List ℕ) (offset : ℕ), data.length < offset + 3 →
      parse_accelerometer data offset = some none) ∧
    (∀ (data : List ℕ) (offset : ℕ), data.length < offset + 10 →
      parse_ir data offset = some []) ∧
    (∀ (data : List ℕ) (offset : ℕ), data.length < offset + 6 →
      parse_motionplus data offset = some none) ∧
    (∀ (data : List ℕ) (offset : ℕ), data.length < offset + 6 →
      parse_nunchuk data offset = some none) := by
  refine ⟨?_, ?_, ?_, ?_, ?_, ?_, ?_⟩
  · intro data extension
    unfold parse_report
    split
    · rfl
    · rename_i hlen
      rw [List.getElem?_eq_getElem (by omega)]
      simp only [Option.bind_eq_bind, Option.some_bind]
      split
      · rfl
      · rw [List.getElem?_eq_getElem (by omega)]
        simp only [Option.bind_eq_bind, Option.some_bind]
        split
        · exact parse_report_data_isSome _ _ _ _
        · split
          · exact parse_report_status_isSome _ _
          · rfl
  · intro data extension h
    unfold parse_report
    rw [if_pos h]
  · intro data h
    unfold parse_buttons
    rw [if_pos h]
  · intro data offset h
    unfold parse_accelerometer
    rw [if_pos h]
  · intro data offset h
    unfold parse_ir
    rw [if_pos h]
  · intro data offset h
    unfold parse_motionplus
    rw [if_pos h]
  · intro data offset h
    unfold parse_nunchuk
    rw [if_pos h]

/-- Closed witness for C8 on concrete malformed frames. -/
theorem parse_report_never_raises_witness :
    ((parse_report [] none).isSome = true ∧
      (parse_report [0xA1, 0x36, 0x00] (some "motionplus")).isSome = true) ∧
    (([0xA1] : List ℕ).length < 2 ∧ parse_report [0xA1] none = some emptyResult) ∧
    (([0x07] : List ℕ).length < 0 + 3 ∧ parse_accelerometer [0x07] 0 = some none) ∧
    (([] : List ℕ).length < 5 + 10 ∧ parse_ir [] 5 = some []) ∧
    (([1, 2, 3] : List ℕ).length < 0 + 6 ∧ parse_motionplus [1, 2, 3] 0 = some none) :=
  ⟨⟨parse_report_never_raises.1 [] none,
    parse_report_never_raises.1 [0xA1, 0x36, 0x00] (some "motionplus")⟩,
   ⟨by decide, parse_report_never_raises.2.1 [0xA1] none (by decide)⟩,
   ⟨by decide, parse_report_never_raises.2.2.2.1 [0x07] 0 (by decide)⟩,
   ⟨by decide, parse_report_never_raises.2.2.2.2.1 [] 5 (by decide)⟩,
   ⟨by decide, parse_report_never_raises.2.2.2.2.2.1 [1, 2, 3] 0 (by decide)⟩⟩

end WiimoteProtocol

namespace WiimoteDriver

open WiimoteProtocol

theorem queue_push_all_nil (cap : ℕ) (q : List α) :
    queue_push_all cap q [] = q := rfl

theorem queue_push_all_cons (cap : ℕ) (q : List α) (x : α) (xs : List α) :
    queue_push_all cap q (x :: xs) = queue_push_all cap (queue_push cap q x) xs := rfl

/-- While the queue stays under capacity, pushes simply append. -/
theorem queue_push_all_no_overflow (cap : ℕ) (xs : List α) :
    ∀ q : List α, q.length + xs.length ≤ cap → queue_push_all cap q xs = q ++ xs := by
  induction xs with
  | nil => intro q _; simp [queue_push_all]
  | cons x xs ih =>
    intro q h
    rw [queue_push_all_cons, queue_push, if_pos (by simp at h; omega)]
    rw [ih (q ++ [x]) (by simp at h ⊢; omega)]
    simp

/-- A push never grows the queue beyond the capacity. -/
theorem queue_push_length_le (cap : ℕ) (hcap : 1 ≤ cap) (q : List α) (x : α)
    (h : q.length ≤ cap) : (queue_push cap q x).length ≤ cap := by
  unfold queue_push
  split <;> simp <;> omega

/-- C7: the bounded frame queue never blocks its producer.  A push onto a
queue already holding `cap` frames drops the oldest frame and appends the new
one; a push never leaves more than `cap` frames; and pushing `cap + 1` frames
into an empty queue retains exactly the last `cap` frames, excluding the
oldest pushed frame. -/
theorem queue_drop_oldest (cap : ℕ) (xs : List ℕ) (hcap : 1 ≤ cap)
    (hlen : xs.length = cap + 1) :
    (∀ (q : List ℕ) (x : ℕ), q.length = cap → queue_push cap q x = q.drop 1 ++ [x]) ∧
    (∀ (q : List ℕ) (x : ℕ), q.length ≤ cap → (queue_push cap q x).length ≤ cap) ∧
    queue_push_all cap [] xs = xs.drop 1 ∧
    (queue_push_all cap [] xs).length = cap := by
  refine ⟨?_, fun q x h => queue_push_length_le cap hcap q x h, ?_, ?_⟩
  · intro q x h
    unfold queue_push
    rw [if_neg (by omega)]
  · have hne : xs ≠ [] := by intro h; rw [h] at hlen; simp at hlen
    obtain ⟨ys, z, rfl⟩ : ∃ ys z, xs = ys ++ [z] := by
      refine ⟨xs.dropLast, xs.getLast hne, ?_⟩
      exact (List.dropLast_append_getLast hne).symm
    have hys : ys.length = cap := by simp at hlen; omega
    have hyne : ys ≠ [] := by
      intro h; rw [h] at hys; simp at hys; omega
    rw [queue_push_all, List.foldl_append]
    rw [show List.foldl (queue_push cap) [] ys = queue_push_all cap [] ys from rfl]
    rw [queue_push_all_no_overflow cap ys [] (by simp [hys])]
    simp only [List.nil_append, List.foldl_cons, List.foldl_nil]
    rw [queue_push, if_neg (by omega)]
    rw [List.drop_append_of_le_length (by omega)]
  · have hne : xs ≠ [] := by intro h; rw [h] at hlen; simp at hlen
    obtain ⟨ys, z, rfl⟩ : ∃ ys z, xs = ys ++ [z] := by
      refine ⟨xs.dropLast, xs.getLast hne, ?_⟩
      exact (List.dropLast_append_getLast hne).symm
    have hys : ys.length = cap := by simp at hlen; omega
    rw [queue_push_all, List.foldl_append]
    rw [show List.foldl (queue_push cap) [] ys = queue_push_all cap [] ys from rfl]
    rw [queue_push_all_no_overflow cap ys [] (by simp [hys])]
    simp only [List.nil_append, List.foldl_cons, List.foldl_nil]
    rw [queue_push, if_neg (by omega)]
    simp
    omega

/-- C5 counterexample: the status-report decode path that uses the documented
0–200 scale (`WiimoteDriver.read_state`) maps battery raw `0x80` to `64`, not
`50`: on the frame `a1 20 00 00 00 00 80` the driver selects raw `0x80` and
computes `min(100, int((0x80 / 200) * 100)) = 64`. -/
theorem battery_0x80_not_50_on_200_scale :
    driver_status_battery_raw [0xA1, 0x20, 0x00, 0x00, 0x00, 0x00, 0x80] 2 =
      some 0x80 ∧
    driver_battery_level 0x80 = 64 ∧ (64 : ℕ) ≠ 50 := by
  refine ⟨rfl, rfl, by decide⟩

/-- C5 (amended): the two status-report battery decoders use different
scales.  `WiimoteProtocol.parse_report` computes `int((raw / 255) * 100)`,
which maps raw `0x80` to exactly `50`; `WiimoteDriver.read_state` computes
`min(100, int((raw / 200) * 100))`, which maps raw `0x80` to `64`. -/
theorem battery_scales_amended :
    (∀ b2 b3 b4 b5 raw : ℕ,
      parse_report [0xA1, 0x20, b2, b3, b4, b5, raw] none =
        some { emptyResult with report_type := some 0x20,
                                battery := some (protocol_battery_level raw) } ∧
      driver_status_battery_raw [0xA1, 0x20, b2, b3, b4, b5, raw] 2 = some raw) ∧
    protocol_battery_level 0x80 = 50 ∧
    driver_battery_level 0x80 = 64 := by
  refine ⟨fun b2 b3 b4 b5 raw => ⟨rfl, rfl⟩, by decide, by decide⟩

/-- C3: on a 0x36 frame, `WiimoteProtocol.parse_report` reads the IR block
from payload offset 2 (overlapping the accelerometer bytes) and the extension
block from payload offset 5, while `WiimoteDriver.read_state` computes the
extension offset for the very same tag as 15 (buttons 2 + accel 3 + IR 10).
Payload bytes 5–14 are `11 22 … AA` and bytes 15–20 are
`10 20 30 FC FC FC`; the decoded `motionplus` comes from offset 5. -/
theorem report36_layout_divergence :
    parse_report
        ([0xA1, 0x36] ++
          ([0x00, 0x00, 0x01, 0x02, 0x03,
            0x11, 0x22, 0x33, 0x44, 0x55, 0x66, 0x77, 0x88, 0x99, 0xAA,
            0x10, 0x20, 0x30, 0xFC, 0xFC, 0xFC]))
        (some "motionplus") =
      some { emptyResult with
             report_type := some 0x36
             buttons := some {}
             accel := some { x := 4, y := 4, z := 6 }
             ir_points :=
               [{ x := 0x001, y := 0x002, size := 0x3 },
                { x := 0x311, y := 0x022, size := 0x3 },
                { x := 0x244, y := 0x155, size := 0x6 },
                { x := 0x177, y := 0x288, size := 0x9 }]
             motionplus := some (mp_of_bytes 0x11 0x22 0x33 0x44 0x55 0x66) } ∧
    mp_of_bytes 0x11 0x22 0x33 0x44 0x55 0x66 ≠
      mp_of_bytes 0x10 0x20 0x30 0xFC 0xFC 0xFC ∧
    driver_extension_offset 0x36 0 = some 15 ∧
    driver_extension_expected_len 0x36 = 16 := by
  refine ⟨by decide, by decide, rfl, rfl⟩

/-- Closed witness for C7 at `cap = 2`, frames `[10, 20, 30]`. -/
theorem queue_drop_oldest_witness :
    ((1 ≤ 2 ∧ ([10, 20, 30] : List ℕ).length = 2 + 1) ∧
      ((∀ (q : List ℕ) (x : ℕ), q.length = 2 → queue_push 2 q x = q.drop 1 ++ [x]) ∧
       (∀ (q : List ℕ) (x : ℕ), q.length ≤ 2 → (queue_push 2 q x).length ≤ 2) ∧
       queue_push_all 2 [] [10, 20, 30] = ([10, 20, 30] : List ℕ).drop 1 ∧
       (queue_push_all 2 [] [10, 20, 30]).length = 2)) :=
  ⟨⟨by decide, by decide⟩, queue_drop_oldest 2 [10, 20, 30] (by decide) (by decide)⟩


/-- C6 counterexample: with the defaults `max_delay = 3`,
`backoff_factor = 8/5`, `jitter = 1/10` and fractional clock `0`, a failure
after delay `1/2` yields next delay `17/20`, which exceeds
`previous × backoff = 4/5` — the claimed bound
`next ≤ previous_delay × backoff_factor` fails. -/
theorem reconnect_jitter_exceeds_backoff_bound :
    reconnect_next_delay 3 (8 / 5) (1 / 10) 0 (1 / 2) = 17 / 20 ∧
    ¬((17 / 20 : ℚ) ≤ (1 / 2) * (8 / 5)) := by
  constructor
  · unfold reconnect_next_delay
    norm_num
  · norm_num

/-- C6 (amended): after a failed attempt the next delay is
`min(max_delay, previous × backoff)` plus a jitter term bounded by
`jitter / 2` (so it can exceed both `previous × backoff` and `max_delay` by up
to `jitter / 2`), floored at `0.1`; with `jitter = 0` the next delay is
exactly `min(max_delay, previous × backoff)`; and a reconnect episode begun
after a success starts at `max(0.1, initial_delay)`. -/
theorem reconnect_backoff_amended (max_delay backoff jitter frac delay initial : ℚ)
    (hj : 0 ≤ jitter) (hf : 0 ≤ frac) (hmax : 1 / 10 ≤ max_delay)
    (hdb : 1 / 10 ≤ delay * backoff) :
    reconnect_next_delay max_delay backoff jitter frac delay ≤
      min max_delay (delay * backoff) + jitter * (1 / 2) ∧
    (jitter = 0 →
      reconnect_next_delay max_delay backoff jitter frac delay =
        min max_delay (delay * backoff)) ∧
    reconnect_initial_delay initial = max (1 / 10) initial := by
  refine ⟨?_, ?_, rfl⟩
  · unfold reconnect_next_delay
    split
    · apply max_le
      · have := le_min hmax hdb
        nlinarith
      · have : jitter * (1 / 2 - frac) ≤ jitter * (1 / 2) := by nlinarith
        linarith
    · nlinarith
  · intro h
    unfold reconnect_next_delay
    rw [if_neg (by rw [h]; exact lt_irrefl 0)]

/-- Closed witness for the amended C6 at the default configuration. -/
theorem reconnect_backoff_amended_witness :
    ((0 : ℚ) ≤ 1 / 10 ∧ (0 : ℚ) ≤ 1 / 4 ∧ (1 / 10 : ℚ) ≤ 3 ∧
      (1 / 10 : ℚ) ≤ (1 / 2) * (8 / 5)) ∧
    (reconnect_next_delay 3 (8 / 5) (1 / 10) (1 / 4) (1 / 2) ≤
      min 3 ((1 / 2) * (8 / 5)) + (1 / 10) * (1 / 2) ∧
    ((1 / 10 : ℚ) = 0 →
      reconnect_next_delay 3 (8 / 5) (1 / 10) (1 / 4) (1 / 2) =
        min 3 ((1 / 2) * (8 / 5))) ∧
    reconnect_initial_delay (1 / 2) = max (1 / 10) (1 / 2)) :=
  ⟨⟨by norm_num, by norm_num, by norm_num, by norm_num⟩,
   reconnect_backoff_amended 3 (8 / 5) (1 / 10) (1 / 4) (1 / 2) (1 / 2)
     (by norm_num) (by norm_num) (by norm_num) (by norm_num)⟩

/-- When every read fails, the sampling loop collects nothing. -/
theorem calib_loop_all_none (samples : ℕ) :
    ∀ (fuel : ℕ) (reads : List (Option ((ℚ × ℚ × ℚ) × (ℚ × ℚ × ℚ))))
      (accel_samples gyro_samples : List (ℚ × ℚ × ℚ)),
      (∀ r ∈ reads, r = none) →
      calib_loop samples fuel reads accel_samples gyro_samples =
        (accel_samples, gyro_samples) := by
  intro fuel
  induction fuel with
  | zero => intro reads a g _; rfl
  | succ n ih =>
    intro reads a g hnone
    unfold calib_loop
    split
    · rfl
    · match reads with
      | [] => exact ih [] a g (by simp)
      | none :: rest => exact ih rest a g (fun r hr => hnone r (List.mem_cons_of_mem _ hr))
      | some pr :: rest =>
        exact absurd (hnone (some pr) (List.mem_cons_self _ _)) (by simp)

/-- C9: if calibration gathers zero usable sample pairs within its
`3 × samples` attempt budget it returns failure and the stored offsets are
unchanged; in particular this happens whenever every raw read fails. -/
theorem calibrate_zero_samples (samples : ℕ) (gyro_target accel_target : ℚ)
    (reads : List (Option ((ℚ × ℚ × ℚ) × (ℚ × ℚ × ℚ)))) (st : CalibOffsets)
    (hz : (calib_loop samples (samples * 3) reads [] []).2 = []) :
    calibrate samples gyro_target accel_target reads st = (false, st) ∧
    ((∀ r ∈ reads, r = none) →
      calib_loop samples (samples * 3) reads [] [] = ([], [])) := by
  constructor
  · unfold calibrate
    rw [if_pos (Or.inl hz)]
  · intro hnone
    exact calib_loop_all_none samples (samples * 3) reads [] [] hnone

theorem mp_window_length (ext : List ℕ) (i : ℕ) (h : i + 6 ≤ ext.length) :
    (mp_window ext i).length = 6 := by
  simp [mp_window]
  omega

theorem parse_motionplus_len6 (c : List ℕ) (h : c.length = 6) :
    parse_motionplus c 0 =
      some (some (mp_of_bytes (c.getD 0 0) (c.getD 1 0) (c.getD 2 0)
        (c.getD 3 0) (c.getD 4 0) (c.getD 5 0))) := by
  rcases c with _ | ⟨b0, c⟩; · simp at h
  rcases c with _ | ⟨b1, c⟩; · simp at h
  rcases c with _ | ⟨b2, c⟩; · simp at h
  rcases c with _ | ⟨b3, c⟩; · simp at h
  rcases c with _ | ⟨b4, c⟩; · simp at h
  rcases c with _ | ⟨b5, c⟩; · simp at h
  rcases c with _ | ⟨b6, c⟩
  · rfl
  · simp at h

theorem window_parse (ext : List ℕ) (i : ℕ) (h : i + 6 ≤ ext.length) :
    parse_motionplus (mp_window ext i) 0 = some (some (mp_at ext i)) := by
  rw [parse_motionplus_len6 _ (mp_window_length ext i h)]
  rfl

theorem mp_scan_aux (ext : List ℕ) :
    ∀ m : ℕ, m + 6 ≤ ext.length →
      ∃ i, (List.range (m + 1)).foldl (mp_scan_step ext) none =
          some (i, score_at ext i, mp_at ext i) ∧
        i ≤ m ∧
        (∀ j, j ≤ m → score_at ext j ≤ score_at ext i) ∧
        (∀ j, j < i → score_at ext j < score_at ext i) := by
  intro m
  induction m with
  | zero =>
    intro h
    refine ⟨0, ?_, le_refl 0, ?_, ?_⟩
    · rw [show List.range 1 = [0] from rfl]
      simp only [List.foldl_cons, List.foldl_nil]
      unfold mp_scan_step
      rw [window_parse ext 0 h]
      rfl
    · intro j hj
      have : j = 0 := Nat.le_zero.mp hj
      subst this
      exact le_refl _
    · intro j hj
      exact absurd hj (Nat.not_lt_zero j)
  | succ n ih =>
    intro h
    obtain ⟨i, hfold, hile, hmax, hstrict⟩ := ih (by omega)
    rw [List.range_succ, List.foldl_append, hfold]
    simp only [List.foldl_cons, List.foldl_nil]
    unfold mp_scan_step
    rw [window_parse ext (n + 1) h]
    dsimp only
    split
    · rename_i hlt
      refine ⟨n + 1, rfl, le_refl _, ?_, ?_⟩
      · intro j hj
        rcases Nat.lt_or_ge j (n + 1) with hj' | hj'
        · exact le_of_lt (lt_of_le_of_lt (hmax j (by omega)) hlt)
        · have hje : j = n + 1 := by omega
          subst hje
          exact le_refl _
      · intro j hj
        exact lt_of_le_of_lt (hmax j (by omega)) hlt
    · rename_i hnlt
      push_neg at hnlt
      refine ⟨i, rfl, by omega, ?_, hstrict⟩
      intro j hj
      rcases Nat.lt_or_ge j (n + 1) with hj' | hj'
      · exact hmax j (by omega)
      · have hje : j = n + 1 := by omega
        subst hje
        exact hnlt

/-- C4: on any extension payload with at least one 6-byte window, the
sliding-window search returns the earliest window of maximal score (scores
being `3×high_bits + 2×in_range + non_zero` exactly as claimed), and the
located motion data is that window's decode exactly when its score is ≥ 2;
otherwise no motion data is reported for the frame. -/
theorem mp_scan_selects_best (ext : List ℕ) (h6 : 6 ≤ ext.length) :
    ∃ i,
      mp_scan ext = some (i, score_at ext i, mp_at ext i) ∧
      i + 6 ≤ ext.length ∧
      (∀ j, j + 6 ≤ ext.length → score_at ext j ≤ score_at ext i) ∧
      (∀ j, j < i → score_at ext j < score_at ext i) ∧
      (2 ≤ score_at ext i → mp_locate ext = some (i, mp_at ext i)) ∧
      (score_at ext i < 2 → mp_locate ext = none) ∧
      (∀ (c : List ℕ) (mp : MotionPlusData), mp_window_score c mp =
        3 * ((if c.getD 3 0 &&& 0xFC ≠ 0 then 1 else 0) +
             (if c.getD 4 0 &&& 0xFC ≠ 0 then 1 else 0) +
             (if c.getD 5 0 &&& 0xFC ≠ 0 then 1 else 0)) +
        2 * ([mp.roll, mp.pitch, mp.yaw].filter fun v =>
              decide (1000 ≤ v ∧ v ≤ 16000)).length +
        ([mp.roll, mp.pitch, mp.yaw].filter fun v => decide (v ≠ 0)).length) := by
  obtain ⟨i, hfold, hile, hmax, hstrict⟩ := mp_scan_aux ext (ext.length - 6) (by omega)
  have hscan : mp_scan ext = some (i, score_at ext i, mp_at ext i) := by
    unfold mp_scan
    rw [show max 0 (ext.length - 6) = ext.length - 6 from Nat.zero_max _]
    exact hfold
  refine ⟨i, hscan, by omega, ?_, hstrict, ?_, ?_, ?_⟩
  · intro j hj
    exact hmax j (by omega)
  · intro h2
    unfold mp_locate
    rw [hscan]
    dsimp only
    rw [if_pos h2]
  · intro h2
    unfold mp_locate
    rw [hscan]
    dsimp only
    rw [if_neg (by omega)]
  · intro c mp
    unfold mp_window_score
    dsimp only
    ring


/-- Closed witness for C4 on `mpScanExample`. -/
theorem mp_scan_selects_best_witness :
    6 ≤ mpScanExample.length ∧
    (∃ i,
      mp_scan mpScanExample =
        some (i, score_at mpScanExample i, mp_at mpScanExample i) ∧
      i + 6 ≤ mpScanExample.length ∧
      (∀ j, j + 6 ≤ mpScanExample.length →
        score_at mpScanExample j ≤ score_at mpScanExample i) ∧
      (∀ j, j < i → score_at mpScanExample j < score_at mpScanExample i) ∧
      (2 ≤ score_at mpScanExample i →
        mp_locate mpScanExample = some (i, mp_at mpScanExample i)) ∧
      (score_at mpScanExample i < 2 → mp_locate mpScanExample = none) ∧
      (∀ (c : List ℕ) (mp : MotionPlusData), mp_window_score c mp =
        3 * ((if c.getD 3 0 &&& 0xFC ≠ 0 then 1 else 0) +
             (if c.getD 4 0 &&& 0xFC ≠ 0 then 1 else 0) +
             (if c.getD 5 0 &&& 0xFC ≠ 0 then 1 else 0)) +
        2 * ([mp.roll, mp.pitch, mp.yaw].filter fun v =>
              decide (1000 ≤ v ∧ v ≤ 16000)).length +
        ([mp.roll, mp.pitch, mp.yaw].filter fun v => decide (v ≠ 0)).length)) :=
  ⟨by decide, mp_scan_selects_best mpScanExample (by decide)⟩

/-- Closed witness for C9: two failed reads, budget `2 × 3`, concrete
offsets. -/
theorem calibrate_zero_samples_witness :
    ((calib_loop 2 (2 * 3) [none, none] [] []).2 = []) ∧
    (calibrate 2 8000 512 [none, none]
        ⟨(1, 2, 3), (4, 5, 6)⟩ = (false, ⟨(1, 2, 3), (4, 5, 6)⟩) ∧
      ((∀ r ∈ ([none, none] : List (Option ((ℚ × ℚ × ℚ) × (ℚ × ℚ × ℚ)))), r = none) →
        calib_loop 2 (2 * 3) [none, none] [] [] = ([], []))) :=
  ⟨by rfl,
   calibrate_zero_samples 2 8000 512 [none, none] ⟨(1, 2, 3), (4, 5, 6)⟩ (by rfl)⟩

end WiimoteDriver

namespace MouseFilters

/-- C10 counterexample: with `alpha = 0` (a legal constructor argument) the
second `apply` returns the new sample, not
`alpha × sample + (1 − alpha) × previous` (which would be the previous value
`5`): the filter built with alpha `0`, fed `5` then `7`, outputs `7 ≠ 5 =
0 × 7 + (1 − 0) × 5`. -/
theorem lowpass_alpha_zero_counterexample :
    (LowPassFilter.make (some (0 : ℚ))).alpha = 0 ∧
    (((LowPassFilter.make (some (0 : ℚ))).apply 5).1.apply 7).2 = 7 ∧
    ((0 : ℚ) * 7 + (1 - 0) * 5 = 5) ∧ (7 : ℚ) ≠ 5 := by
  refine ⟨?_, ?_, by norm_num, by norm_num⟩ <;>
    simp [LowPassFilter.make, LowPassFilter.apply, clamp_alpha]

/-- C10 (amended): the constructor clamps any numeric alpha into `[0, 1]` and
maps non-numeric arguments to `0`; the first `apply` after construction or an
empty `reset` returns the sample unchanged and stores it; every later output
equals `alpha × sample + (1 − alpha) × previous` when `alpha > 0`, while for
`alpha ≤ 0` the filter passes the sample through unchanged; in all cases with
`alpha ∈ [0, 1]` the output lies between the previous value and the sample,
inclusive. -/
theorem lowpass_amended :
    (∀ a : ℚ, 0 ≤ clamp_alpha (some a) ∧ clamp_alpha (some a) ≤ 1 ∧
      clamp_alpha (none : Option ℚ) = 0 ∧
      (LowPassFilter.make (some a)).hasValue = false ∧
      (∀ f : LowPassFilter ℚ, (f.reset none).hasValue = false)) ∧
    (∀ (f : LowPassFilter ℚ) (v : ℚ), f.hasValue = false →
      f.apply v = ({ f with hasValue := true, value := v }, v)) ∧
    (∀ (f : LowPassFilter ℚ) (v : ℚ), 0 < f.alpha → f.hasValue = true →
      f.apply v = ({ f with hasValue := true,
                            value := f.alpha * v + (1 - f.alpha) * f.value },
                   f.alpha * v + (1 - f.alpha) * f.value)) ∧
    (∀ (f : LowPassFilter ℚ) (v : ℚ), f.alpha ≤ 0 →
      f.apply v = ({ f with hasValue := true, value := v }, v)) ∧
    (∀ (f : LowPassFilter ℚ) (v : ℚ), 0 ≤ f.alpha → f.alpha ≤ 1 →
      min f.value v ≤ (f.apply v).2 ∧ (f.apply v).2 ≤ max f.value v) := by
  refine ⟨?_, ?_, ?_, ?_, ?_⟩
  · intro a
    refine ⟨le_max_left _ _, ?_, rfl, rfl, fun f => rfl⟩
    exact max_le (by norm_num) (min_le_left _ _)
  · intro f v h
    unfold LowPassFilter.apply
    split
    · rfl
    · simp [h]
  · intro f v ha h
    unfold LowPassFilter.apply
    rw [if_neg (not_le.mpr ha), h]
    simp
  · intro f v h
    unfold LowPassFilter.apply
    rw [if_pos h]
  · intro f v h0 h1
    unfold LowPassFilter.apply
    split
    · exact ⟨min_le_right _ _, le_max_right _ _⟩
    · split
      · exact ⟨min_le_right _ _, le_max_right _ _⟩
      · dsimp only
        have h2 : (0 : ℚ) ≤ 1 - f.alpha := by linarith
        constructor
        · have hfv : min f.value v ≤ f.value := min_le_left _ _
          have hv : min f.value v ≤ v := min_le_right _ _
          have m1 := mul_le_mul_of_nonneg_left hv h0
          have m2 := mul_le_mul_of_nonneg_left hfv h2
          nlinarith [m1, m2]
        · have hfv : f.value ≤ max f.value v := le_max_left _ _
          have hv : v ≤ max f.value v := le_max_right _ _
          have m1 := mul_le_mul_of_nonneg_left hv h0
          have m2 := mul_le_mul_of_nonneg_left hfv h2
          nlinarith [m1, m2]

/-- Closed witness for the amended C10, exercising the `alpha > 0` branch and
the betweenness bound at `alpha = 1/2`, previous value `4`, sample `8`. -/
theorem lowpass_amended_witness :
    ((0 : ℚ) < (1 / 2 : ℚ) ∧ (⟨1 / 2, true, 4⟩ : LowPassFilter ℚ).hasValue = true ∧
      (0 : ℚ) ≤ 1 / 2 ∧ (1 / 2 : ℚ) ≤ 1) ∧
    (⟨1 / 2, true, 4⟩ : LowPassFilter ℚ).apply 8 =
      (⟨1 / 2, true, 1 / 2 * 8 + (1 - 1 / 2) * 4⟩, 1 / 2 * 8 + (1 - 1 / 2) * 4) ∧
    min (4 : ℚ) 8 ≤ ((⟨1 / 2, true, 4⟩ : LowPassFilter ℚ).apply 8).2 ∧
    ((⟨1 / 2, true, 4⟩ : LowPassFilter ℚ).apply 8).2 ≤ max (4 : ℚ) 8 :=
  ⟨⟨by norm_num, rfl, by norm_num, by norm_num⟩,
   lowpass_amended.2.2.1 ⟨1 / 2, true, 4⟩ 8 (by norm_num) rfl,
   lowpass_amended.2.2.2.2 ⟨1 / 2, true, 4⟩ 8 (by norm_num) (by norm_num)⟩

end MouseFilters

namespace MouseFusion

open MouseFilters

/-- C2 counterexample: the code clamps `dt` to `0.01` whenever the raw
elapsed time exceeds `0.1` s (or is ≤ 0), so the claimed
`pitch = 0.3 × (pitch_prev + rate_y × dt) + 0.7 × pitch_a` with the actual
elapsed time is false on such ticks.  Concretely: from the zero state with a
previous tick `0.2` s ago, accelerometer at neutral (512) and `gyro_y = 9000`
(rate `0.14` rad/s, above the deadzone), the new blended pitch uses the
clamped `dt = 0.01` and differs from the value the claimed formula assigns
with the elapsed `dt = 0.2`. -/
theorem fusion_dt_clamp_counterexample :
    (let p : FusionParams := ⟨1, 0, 3 / 10, 1 / 4⟩
     let st : FusionState := ⟨0, 0, 0, 0, some 0, ⟨1 / 2, false, 0⟩, ⟨1 / 2, false, 0⟩⟩
     (1 / 10 : ℝ) < 1 / 5 - 0 ∧
     (fusion_step p st 512 512 512 8000 9000 (1 / 5)).1.pitch =
       3 / 10 * (st.pitch + gyro_rate p.smoothing 9000 * (1 / 100)) +
         (1 - 3 / 10) * accel_pitch_of 512 512 512 ∧
     (fusion_step p st 512 512 512 8000 9000 (1 / 5)).1.pitch ≠
       3 / 10 * (st.pitch + gyro_rate p.smoothing 9000 * (1 / 5 - 0)) +
         (1 - 3 / 10) * accel_pitch_of 512 512 512) := by
  dsimp only
  have hap : accel_pitch_of 512 512 512 = 0 := by
    unfold accel_pitch_of atan2
    norm_num
  have hgr : gyro_rate 0 9000 = 7 / 50 := by
    unfold gyro_rate deadzone_cut
    rw [if_neg (by rw [abs_of_nonneg (by norm_num)]; norm_num)]
    norm_num
  have hpitch : (fusion_step ⟨1, 0, 3 / 10, 1 / 4⟩
      ⟨0, 0, 0, 0, some 0, ⟨1 / 2, false, 0⟩, ⟨1 / 2, false, 0⟩⟩
      512 512 512 8000 9000 (1 / 5)).1.pitch =
      3 / 10 * (0 + gyro_rate 0 9000 * (1 / 100)) +
        (1 - 3 / 10) * accel_pitch_of 512 512 512 := by
    unfold fusion_step
    dsimp only
    rw [if_pos (Or.inl (show (1 / 10 : ℝ) < 1 / 5 - 0 by norm_num))]
  refine ⟨by norm_num, hpitch, ?_⟩
  rw [hpitch, hap, hgr]
  norm_num

/-- C2 (amended): on the first fusion tick (`last_time = None`) the angles
are initialized from the accelerometer alone and no movement is emitted; on
every later tick the integration step `dt` is the raw elapsed time when that
lies in `(0, 0.1]` and is clamped to `0.01` otherwise, and with that `dt` the
blended angles are `pitch = 0.3 × (pitch_prev + rate_y × dt) + (1 − 0.3) ×
pitch_a` (symmetrically for roll with `rate_x`), `1 − 0.3 = 0.7`, the
previous-angle registers are overwritten with the new blended angles, and the
emitted movement is computed from the deadzoned change `pitch − prev_pitch` /
`roll − prev_roll` of the blended angle this tick, scaled, low-pass filtered
and gated at half a pixel — not from the absolute angle. -/
theorem fusion_step_amended (p : FusionParams) (st : FusionState)
    (ax ay az gx gy now t : ℝ) :
    (st.last_time = none →
      fusion_step p st ax ay az gx gy now =
        ({ st with pitch := accel_pitch_of ax ay az,
                   roll := accel_roll_of ax ay az,
                   prev_pitch := accel_pitch_of ax ay az,
                   prev_roll := accel_roll_of ax ay az,
                   last_time := some now }, none)) ∧
    ((1 : ℝ) - 3 / 10 = 7 / 10) ∧
    (st.last_time = some t →
      (let dt := if 1 / 10 < now - t ∨ now - t ≤ 0 then 1 / 100 else now - t
       let pitch' := 3 / 10 * (st.pitch + gyro_rate p.smoothing gy * dt) +
         (1 - 3 / 10) * accel_pitch_of ax ay az
       let roll' := 3 / 10 * (st.roll + gyro_rate p.smoothing gx * dt) +
         (1 - 3 / 10) * accel_roll_of ax ay az
       let mx := st.gyro_filter_x.apply
         (-(deadzone_cut (fusion_deadzone p) (roll' - st.prev_roll)) * fusion_scale p)
       let my := st.gyro_filter_y.apply
         (deadzone_cut (fusion_deadzone p) (pitch' - st.prev_pitch) * fusion_scale p)
       fusion_step p st ax ay az gx gy now =
         ({ st with pitch := pitch', roll := roll', prev_pitch := pitch',
                    prev_roll := roll', last_time := some now,
                    gyro_filter_x := mx.1, gyro_filter_y := my.1 },
          if 1 / 2 < |mx.2| ∨ 1 / 2 < |my.2| then some (mx.2, my.2) else none))) := by
  refine ⟨?_, by norm_num, ?_⟩
  · intro h
    unfold fusion_step
    rw [h]
  · intro h1
    unfold fusion_step
    rw [h1]

/-- Closed witness for the amended C2: a second tick at rest (`accel = 512`,
`gyro = 8000`, elapsed `1/100` s) from the zero state. -/
theorem fusion_step_amended_witness :
    ((⟨0, 0, 0, 0, some 0, ⟨1 / 2, false, 0⟩, ⟨1 / 2, false, 0⟩⟩ :
        FusionState).last_time = some 0) ∧
    (let p : FusionParams := ⟨1, 5, 3 / 10, 1 / 4⟩
     let st : FusionState := ⟨0, 0, 0, 0, some 0, ⟨1 / 2, false, 0⟩, ⟨1 / 2, false, 0⟩⟩
     let dt := if (1 / 10 : ℝ) < 1 / 100 - 0 ∨ (1 / 100 : ℝ) - 0 ≤ 0
       then 1 / 100 else 1 / 100 - 0
     let pitch' := 3 / 10 * (st.pitch + gyro_rate p.smoothing 8000 * dt) +
       (1 - 3 / 10) * accel_pitch_of 512 512 512
     let roll' := 3 / 10 * (st.roll + gyro_rate p.smoothing 8000 * dt) +
       (1 - 3 / 10) * accel_roll_of 512 512 512
     let mx := st.gyro_filter_x.apply
       (-(deadzone_cut (fusion_deadzone p) (roll' - st.prev_roll)) * fusion_scale p)
     let my := st.gyro_filter_y.apply
       (deadzone_cut (fusion_deadzone p) (pitch' - st.prev_pitch) * fusion_scale p)
     fusion_step p st 512 512 512 8000 8000 (1 / 100) =
       ({ st with pitch := pitch', roll := roll', prev_pitch := pitch',
                  prev_roll := roll', last_time := some (1 / 100),
                  gyro_filter_x := mx.1, gyro_filter_y := my.1 },
        if 1 / 2 < |mx.2| ∨ 1 / 2 < |my.2| then some (mx.2, my.2) else none)) :=
  ⟨rfl,
   (fusion_step_amended ⟨1, 5, 3 / 10, 1 / 4⟩
       ⟨0, 0, 0, 0, some 0, ⟨1 / 2, false, 0⟩, ⟨1 / 2, false, 0⟩⟩
       512 512 512 8000 8000 (1 / 100) 0).2.2 rfl⟩

end MouseFusion
